import Mathlib

/-!
Verification development for the mypy/mypyc core: the RType data model and
subtype relation of `mypyc/ops.py` and `mypyc/subtype.py`, the constant folder
of `mypy/constant_fold.py`, the dataflow framework of `mypyc/analysis.py`, and
the daemon server command layer of `mypy/dmypy_server.py`, embedded shallowly
as executable Lean definitions with theorems about them.
-/

namespace Mypy

/-- Class IR metadata. Modelled from the spec: `mypyc/class_ir.py` is not among
the sources; the spec describes class metadata as a record carrying a full
name and a precomputed MRO linearization, with cross-module references shared
by id (we identify classes by their fully-qualified name). -/
inductive ClassIR where
  | mk (fullname : String) (mro : List ClassIR)

/-- The fully qualified name of a class. -/
def ClassIR.fullname : ClassIR → String
  | .mk n _ => n

/-- The precomputed linearized MRO of a class. -/
def ClassIR.mro : ClassIR → List ClassIR
  | .mk _ m => m

/-- The data carried by an `RPrimitive` instance (`RPrimitive.__init__` in
`mypyc/ops.py`): name, unboxedness, refcountedness and C type. -/
structure RPrimData where
  name : String
  is_unboxed : Bool
  is_refcounted : Bool
  ctype : String
deriving DecidableEq, Repr

/-- Runtime types (`RType` and subclasses in `mypyc/ops.py`): primitives,
fixed-length unboxed tuples, user-class instances, unions, and void. -/
inductive RType where
  | rprimitive (p : RPrimData)
  | rtuple (types : List RType)
  | rinstance (class_ir : ClassIR)
  | runion (items : List RType)
  | rvoid

mutual
/-- Structural equality standing in for Python object identity (`is`): in the
program every registered primitive is a process-wide singleton, and classes
are shared by id, so identity coincides with equality of the underlying data. -/
def RType.beq : RType → RType → Bool
  | .rprimitive p, .rprimitive q => decide (p = q)
  | .rtuple ts, .rtuple us => RType.beqTypes ts us
  | .rinstance c, .rinstance d => c.fullname == d.fullname
  | .runion xs, .runion ys => RType.beqTypes xs ys
  | .rvoid, .rvoid => true
  | _, _ => false

def RType.beqTypes : List RType → List RType → Bool
  | [], [] => true
  | x :: xs, y :: ys => RType.beq x y && RType.beqTypes xs ys
  | _, _ => false
end

instance : BEq RType := ⟨RType.beq⟩

/-- Data of `object_rprimitive` from `mypyc/ops.py`. -/
def objectPrim : RPrimData := ⟨"builtins.object", false, true, "PyObject *"⟩

/-- Data of `int_rprimitive` from `mypyc/ops.py`. -/
def intPrim : RPrimData := ⟨"builtins.int", true, true, "CPyTagged"⟩

/-- Data of `short_int_rprimitive` from `mypyc/ops.py`. -/
def shortIntPrim : RPrimData := ⟨"short_int", true, false, "CPyTagged"⟩

/-- Data of `float_rprimitive` from `mypyc/ops.py`. -/
def floatPrim : RPrimData := ⟨"builtins.float", false, true, "PyObject *"⟩

/-- Data of `bool_rprimitive` from `mypyc/ops.py`. -/
def boolPrim : RPrimData := ⟨"builtins.bool", true, false, "char"⟩

/-- Data of `none_rprimitive` from `mypyc/ops.py`. -/
def nonePrim : RPrimData := ⟨"builtins.None", true, false, "char"⟩

/-- Data of `list_rprimitive` from `mypyc/ops.py`. -/
def listPrim : RPrimData := ⟨"builtins.list", false, true, "PyObject *"⟩

/-- Data of `dict_rprimitive` from `mypyc/ops.py`. -/
def dictPrim : RPrimData := ⟨"builtins.dict", false, true, "PyObject *"⟩

/-- Data of `set_rprimitive` from `mypyc/ops.py`. -/
def setPrim : RPrimData := ⟨"builtins.set", false, true, "PyObject *"⟩

/-- Data of `str_rprimitive` from `mypyc/ops.py`. -/
def strPrim : RPrimData := ⟨"builtins.str", false, true, "PyObject *"⟩

/-- Data of `tuple_rprimitive` from `mypyc/ops.py`. -/
def tuplePrim : RPrimData := ⟨"builtins.tuple", false, true, "PyObject *"⟩

/-- `object_rprimitive` from `mypyc/ops.py`. -/
def object_rprimitive : RType := .rprimitive objectPrim

/-- `int_rprimitive` from `mypyc/ops.py`. -/
def int_rprimitive : RType := .rprimitive intPrim

/-- `short_int_rprimitive` from `mypyc/ops.py`. -/
def short_int_rprimitive : RType := .rprimitive shortIntPrim

/-- `float_rprimitive` from `mypyc/ops.py`. -/
def float_rprimitive : RType := .rprimitive floatPrim

/-- `bool_rprimitive` from `mypyc/ops.py`. -/
def bool_rprimitive : RType := .rprimitive boolPrim

/-- `none_rprimitive` from `mypyc/ops.py`. -/
def none_rprimitive : RType := .rprimitive nonePrim

/-- `list_rprimitive` from `mypyc/ops.py`. -/
def list_rprimitive : RType := .rprimitive listPrim

/-- `dict_rprimitive` from `mypyc/ops.py`. -/
def dict_rprimitive : RType := .rprimitive dictPrim

/-- `set_rprimitive` from `mypyc/ops.py`. -/
def set_rprimitive : RType := .rprimitive setPrim

/-- `str_rprimitive` from `mypyc/ops.py`. -/
def str_rprimitive : RType := .rprimitive strPrim

/-- `tuple_rprimitive` from `mypyc/ops.py`. -/
def tuple_rprimitive : RType := .rprimitive tuplePrim

/-- `is_int_rprimitive`: identity with the `int` singleton. -/
def is_int_rprimitive (r : RType) : Bool := r == int_rprimitive

/-- `is_short_int_rprimitive`: identity with the `short_int` singleton. -/
def is_short_int_rprimitive (r : RType) : Bool := r == short_int_rprimitive

/-- `is_bool_rprimitive`: a primitive named `builtins.bool`. -/
def is_bool_rprimitive : RType → Bool
  | .rprimitive p => p.name == "builtins.bool"
  | _ => false

/-- `is_object_rprimitive`: a primitive named `builtins.object`. -/
def is_object_rprimitive : RType → Bool
  | .rprimitive p => p.name == "builtins.object"
  | _ => false

/-- `is_none_rprimitive`: a primitive named `builtins.None`. -/
def is_none_rprimitive : RType → Bool
  | .rprimitive p => p.name == "builtins.None"
  | _ => false

/-- `is_tuple_rprimitive`: a primitive named `builtins.tuple`. -/
def is_tuple_rprimitive : RType → Bool
  | .rprimitive p => p.name == "builtins.tuple"
  | _ => false

mutual
/-- Whether a runtime type is reference counted.  `RType.is_refcounted`
defaults to true; `RPrimitive.__init__` stores the given flag, and
`RTuple.__init__` sets `is_refcounted = any(t.is_refcounted for t in types)`.
`RInstance`, `RUnion` and `RVoid` keep the default. -/
def RType.is_refcounted : RType → Bool
  | .rprimitive p => p.is_refcounted
  | .rtuple ts => RType.anyRefcounted ts
  | .rinstance _ => true
  | .runion _ => true
  | .rvoid => true

def RType.anyRefcounted : List RType → Bool
  | [] => false
  | t :: ts => t.is_refcounted || RType.anyRefcounted ts
end

theorem anyRefcounted_eq_any (ts : List RType) :
    RType.anyRefcounted ts = ts.any RType.is_refcounted := by
  induction ts with
  | nil => rfl
  | cons t ts ih => simp [RType.anyRefcounted, List.any_cons, ih]

/-- `is_subtype` from `mypyc/subtype.py` together with `SubtypeVisitor`:
the object primitive accepts everything; a union on the right accepts a left
union item-wise and anything else if some right item accepts it; otherwise
dispatch on the left type (instance by MRO membership, union by all items,
primitive by the two promotions or identity, tuple by the tuple primitive or
element-wise subtyping at equal arity, void only by void). -/
def is_subtype (left right : RType) : Bool :=
  if is_object_rprimitive right then true
  else
    match left, right with
    | .runion litems, .runion ritems =>
      litems.attach.all fun li =>
        ritems.attach.any fun ri => is_subtype li.1 ri.1
    | l, .runion ritems => ritems.attach.any fun ri => is_subtype l ri.1
    | .rinstance lc, .rinstance rc => lc.mro.any fun c => c.fullname == rc.fullname
    | .rinstance _, _ => false
    | .runion litems, r => litems.attach.all fun li => is_subtype li.1 r
    | .rprimitive p, r =>
      if is_bool_rprimitive (.rprimitive p) && is_int_rprimitive r then true
      else if is_short_int_rprimitive (.rprimitive p) && is_int_rprimitive r then true
      else RType.rprimitive p == r
    | .rtuple ltypes, r =>
      if is_tuple_rprimitive r then true
      else
        match r with
        | .rtuple rtypes =>
          rtypes.length == ltypes.length &&
            ((ltypes.zip rtypes).attach.all fun pr => is_subtype pr.1.1 pr.1.2)
        | _ => false
    | .rvoid, .rvoid => true
    | .rvoid, _ => false
termination_by sizeOf left + sizeOf right
decreasing_by
  all_goals simp_wf
  all_goals first
    | (have h1 := List.sizeOf_lt_of_mem li.2
       have h2 := List.sizeOf_lt_of_mem ri.2
       omega)
    | (have h2 := List.sizeOf_lt_of_mem ri.2
       omega)
    | (have h1 := List.sizeOf_lt_of_mem li.2
       omega)
    | (obtain ⟨⟨a1, b1⟩, hmem⟩ := pr
       obtain ⟨hl, hr⟩ := List.of_mem_zip hmem
       have h1 := List.sizeOf_lt_of_mem hl
       have h2 := List.sizeOf_lt_of_mem hr
       simp_all
       omega)

/-- The hard-coded type promotion table `TYPE_PROMOTIONS` of
`mypy/semanal_classprop.py`: ad-hoc extra edges for the (mypy-level) subtype
relation, mapping a promoted class's full name to its promotion target. -/
def TYPE_PROMOTIONS : List (String × String) :=
  [("builtins.int", "float"),
   ("builtins.float", "complex"),
   ("builtins.bytearray", "bytes"),
   ("builtins.memoryview", "bytes")]

/-- The promotion-table path of `add_type_promotion` in
`mypy/semanal_classprop.py` (the no-`_promote`-decorator case): look the class
up in `TYPE_PROMOTIONS`, drop the bytearray/memoryview promotions when the
corresponding option disables them, and keep the target only when the module
symbol table has it. -/
def promotion_target (fullname : String) (module_names : String → Bool)
    (disable_bytearray_promotion disable_memoryview_promotion : Bool) : Option String :=
  match TYPE_PROMOTIONS.lookup fullname with
  | none => none
  | some target =>
    if fullname == "builtins.bytearray" && disable_bytearray_promotion then none
    else if fullname == "builtins.memoryview" && disable_memoryview_promotion then none
    else if module_names target then some target else none

theorem all_attach_eq {α : Type _} (l : List α) (f : α → Bool) :
    (l.attach.all fun x => f x.1) = l.all f := by
  rw [Bool.eq_iff_iff]
  simp [List.all_eq_true]

theorem any_attach_eq {α : Type _} (l : List α) (f : α → Bool) :
    (l.attach.any fun x => f x.1) = l.any f := by
  rw [Bool.eq_iff_iff]
  simp [List.any_eq_true]

theorem is_subtype_rprimitive (p q : RPrimData) :
    is_subtype (.rprimitive p) (.rprimitive q) =
      ((q.name == "builtins.object") ||
       (p.name == "builtins.bool" && decide (q = intPrim)) ||
       (decide (p = shortIntPrim) && decide (q = intPrim)) ||
       decide (p = q)) := by
  rw [Bool.eq_iff_iff]
  simp only [is_subtype, is_object_rprimitive, is_bool_rprimitive, is_int_rprimitive,
    is_short_int_rprimitive, int_rprimitive, short_int_rprimitive, BEq.beq, RType.beq]
  by_cases ho : q.name = "builtins.object" <;>
    by_cases hb : p.name = "builtins.bool" <;>
      by_cases hqi : q = intPrim <;>
        by_cases hps : p = shortIntPrim <;>
          by_cases hpq : p = q <;>
            simp_all

theorem is_subtype_rtuple_rtuple (ts us : List RType) :
    is_subtype (.rtuple ts) (.rtuple us) =
      (us.length == ts.length && (ts.zip us).all fun pr => is_subtype pr.1 pr.2) := by
  conv_lhs => rw [is_subtype]
  rw [Bool.eq_iff_iff]
  simp [is_object_rprimitive, is_tuple_rprimitive, List.all_eq_true]

theorem is_subtype_rtuple_tupleprim (ts : List RType) :
    is_subtype (.rtuple ts) tuple_rprimitive = true := by
  simp [tuple_rprimitive, is_subtype, is_object_rprimitive, is_tuple_rprimitive, tuplePrim]

/-- C1: for `RTuple`s of equal arity, `is_subtype` is element-wise subtyping;
every `RTuple` is a subtype of the built-in `tuple` primitive;
`RTuple([int, bool])` is a subtype of `RTuple([int, int])` (bool-to-int
promotion) and of the `tuple` primitive but not of `RTuple([str, int])`;
`RTuple`s of different arity are never subtypes of each other. -/
theorem rtuple_subtype_spec (ts us : List RType) :
    (ts.length = us.length →
      (is_subtype (.rtuple ts) (.rtuple us) = true ↔
        List.Forall₂ (fun a b => is_subtype a b = true) ts us)) ∧
    is_subtype (.rtuple ts) tuple_rprimitive = true ∧
    (ts.length ≠ us.length → is_subtype (.rtuple ts) (.rtuple us) = false) ∧
    is_subtype (RType.rtuple [int_rprimitive, bool_rprimitive])
      (RType.rtuple [int_rprimitive, int_rprimitive]) = true ∧
    is_subtype (RType.rtuple [int_rprimitive, bool_rprimitive]) tuple_rprimitive = true ∧
    is_subtype (RType.rtuple [int_rprimitive, bool_rprimitive])
      (RType.rtuple [str_rprimitive, int_rprimitive]) = false := by
  refine ⟨?_, is_subtype_rtuple_tupleprim ts, ?_, ?_, ?_, ?_⟩
  · intro h
    rw [is_subtype_rtuple_rtuple, List.forall₂_iff_zip]
    simp only [h, beq_self_eq_true, Bool.true_and, List.all_eq_true, eq_self_iff_true,
      true_and]
    constructor
    · intro h' a b hab
      exact h' (a, b) hab
    · intro h' pr hpr
      obtain ⟨a, b⟩ := pr
      exact h' hpr
  · intro h
    rw [is_subtype_rtuple_rtuple]
    simp [Ne.symm h]
  · simp [is_subtype_rtuple_rtuple, is_subtype_rprimitive, int_rprimitive, bool_rprimitive,
      intPrim, boolPrim]
  · exact is_subtype_rtuple_tupleprim _
  · simp [is_subtype_rtuple_rtuple, is_subtype_rprimitive, int_rprimitive, bool_rprimitive,
      str_rprimitive, intPrim, boolPrim, strPrim]

/-- C1 witness: the element-wise characterization instantiated at the concrete
pair `RTuple([int, bool])` and `RTuple([int, int])`. -/
theorem rtuple_subtype_spec_witness :
    is_subtype (RType.rtuple [int_rprimitive, bool_rprimitive])
      (RType.rtuple [int_rprimitive, int_rprimitive]) = true ↔
      List.Forall₂ (fun a b => is_subtype a b = true)
        [int_rprimitive, bool_rprimitive] [int_rprimitive, int_rprimitive] :=
  (rtuple_subtype_spec [int_rprimitive, bool_rprimitive]
    [int_rprimitive, int_rprimitive]).1 (by decide)

/-- C2 counterexample: `is_subtype(int, object)` is true although `int` and
`object` are not the identical primitive and `int` is neither `bool` nor
`short_int`, so the claimed iff fails at `left = int`, `right = object`. -/
theorem prim_subtype_object_counterexample :
    is_subtype int_rprimitive object_rprimitive = true ∧
    (int_rprimitive == object_rprimitive) = false ∧
    is_bool_rprimitive int_rprimitive = false ∧
    is_short_int_rprimitive int_rprimitive = false := by
  refine ⟨?_, by decide, by decide, by decide⟩
  simp [is_subtype_rprimitive, int_rprimitive, object_rprimitive, intPrim, objectPrim]

/-- C2 (amended): for primitives, `is_subtype(left, right)` holds iff `right`
is the `object` primitive, or `left` and `right` are the identical primitive,
or `left` is `bool` and `right` is `int`, or `left` is `short_int` and `right`
is `int`; and the further promotions (integer to floating, bytearray to bytes)
come from the process-wide promotion table `TYPE_PROMOTIONS` and are applied
per class by `add_type_promotion`, toggleable per option. -/
theorem prim_subtype_spec :
    (∀ p q : RPrimData,
      is_subtype (.rprimitive p) (.rprimitive q) = true ↔
        (q.name = "builtins.object" ∨ p = q ∨
         (p.name = "builtins.bool" ∧ q = intPrim) ∨
         (p = shortIntPrim ∧ q = intPrim))) ∧
    TYPE_PROMOTIONS.lookup "builtins.int" = some "float" ∧
    TYPE_PROMOTIONS.lookup "builtins.bytearray" = some "bytes" ∧
    promotion_target "builtins.int" (fun _ => true) false false = some "float" ∧
    promotion_target "builtins.bytearray" (fun _ => true) false false = some "bytes" ∧
    promotion_target "builtins.bytearray" (fun _ => true) true false = none := by
  refine ⟨?_, by decide, by decide, by decide, by decide, by decide⟩
  intro p q
  rw [is_subtype_rprimitive]
  simp only [Bool.or_eq_true, Bool.and_eq_true, beq_iff_eq, decide_eq_true_eq]
  tauto

/-- C6: an `RTuple` is reference counted iff some element is, recursively
through nested tuples; a tuple of only non-refcounted elements (`bool`,
`short_int`, `None`) is not refcounted. -/
theorem rtuple_refcounted_spec :
    (∀ ts : List RType, (RType.rtuple ts).is_refcounted = ts.any RType.is_refcounted) ∧
    (RType.rtuple [bool_rprimitive, short_int_rprimitive]).is_refcounted = false ∧
    (RType.rtuple [RType.rtuple [bool_rprimitive, short_int_rprimitive],
      none_rprimitive]).is_refcounted = false ∧
    (RType.rtuple [RType.rtuple [bool_rprimitive, list_rprimitive],
      none_rprimitive]).is_refcounted = true := by
  refine ⟨fun ts => ?_, by decide, by decide, by decide⟩
  simpa [RType.is_refcounted] using anyRefcounted_eq_any ts

/-- `ERR_NEVER` from `mypyc/ops.py`: the op never generates an exception. -/
def ERR_NEVER : Nat := 0

/-- `ERR_MAGIC` from `mypyc/ops.py`: magic value signals the exception. -/
def ERR_MAGIC : Nat := 1

/-- `ERR_FALSE` from `mypyc/ops.py`: boolean false signals the exception. -/
def ERR_FALSE : Nat := 2

/-- A `Value` (register or op result) as consulted by the `IncRef`/`DecRef`
constructors in `mypyc/ops.py`: a name and a runtime type. -/
structure Value where
  name : String
  type : RType

/-- `inc_ref r` (`IncRef` in `mypyc/ops.py`). -/
structure IncRef where
  src : Value

/-- `IncRef.__init__`: `assert src.type.is_refcounted` before initializing,
so construction fails (assertion error, modelled as `none`) on a
non-refcounted source. -/
def IncRef.construct (src : Value) : Option IncRef :=
  if src.type.is_refcounted then some ⟨src⟩ else none

/-- Class attribute `IncRef.error_kind = ERR_NEVER`. -/
def IncRef.error_kind : Nat := ERR_NEVER

/-- `RegisterOp.can_raise`: `error_kind != ERR_NEVER`. -/
def IncRef.can_raise : Bool := IncRef.error_kind != ERR_NEVER

/-- `dec_ref r` (`DecRef` in `mypyc/ops.py`), with the XDECREF flag. -/
structure DecRef where
  src : Value
  is_xdec : Bool

/-- `DecRef.__init__`: `assert src.type.is_refcounted` before initializing. -/
def DecRef.construct (src : Value) (is_xdec : Bool) : Option DecRef :=
  if src.type.is_refcounted then some ⟨src, is_xdec⟩ else none

/-- Class attribute `DecRef.error_kind = ERR_NEVER`. -/
def DecRef.error_kind : Nat := ERR_NEVER

/-- `RegisterOp.can_raise` for `DecRef`. -/
def DecRef.can_raise : Bool := DecRef.error_kind != ERR_NEVER

/-- C10: `IncRef`/`DecRef` can only be constructed over a refcounted source
(the constructors assert `src.type.is_refcounted`), so every constructed op
has a refcounted source; construction over bool, short-int, None or a tuple
of only such elements fails the assertion; both ops have `error_kind`
`ERR_NEVER` and therefore `can_raise` is false. -/
theorem incref_decref_refcounted_spec :
    (∀ (v : Value) (op : IncRef), IncRef.construct v = some op →
      op.src.type.is_refcounted = true) ∧
    (∀ (v : Value) (x : Bool) (op : DecRef), DecRef.construct v x = some op →
      op.src.type.is_refcounted = true) ∧
    IncRef.construct ⟨"r0", bool_rprimitive⟩ = none ∧
    IncRef.construct ⟨"r0", short_int_rprimitive⟩ = none ∧
    IncRef.construct ⟨"r0", none_rprimitive⟩ = none ∧
    IncRef.construct ⟨"r0", .rtuple [bool_rprimitive, short_int_rprimitive]⟩ = none ∧
    DecRef.construct ⟨"r0", bool_rprimitive⟩ false = none ∧
    DecRef.construct ⟨"r0", .rtuple [none_rprimitive, bool_rprimitive]⟩ true = none ∧
    IncRef.error_kind = ERR_NEVER ∧
    DecRef.error_kind = ERR_NEVER ∧
    IncRef.can_raise = false ∧
    DecRef.can_raise = false := by
  refine ⟨?_, ?_, rfl, rfl, rfl, rfl, rfl, rfl, rfl, rfl, rfl, rfl⟩
  · intro v op h
    by_cases hrc : v.type.is_refcounted = true
    · simp only [IncRef.construct, hrc, if_true, Option.some.injEq] at h
      simp [← h, hrc]
    · simp [IncRef.construct, hrc] at h
  · intro v x op h
    by_cases hrc : v.type.is_refcounted = true
    · simp only [DecRef.construct, hrc, if_true, Option.some.injEq] at h
      simp [← h, hrc]
    · simp [DecRef.construct, hrc] at h

/-- C10 witness: a refcounted construction succeeding, with both general
conjuncts applied at concrete inputs. -/
theorem incref_decref_refcounted_spec_witness :
    (IncRef.construct ⟨"r0", list_rprimitive⟩).elim True
        (fun op => op.src.type.is_refcounted = true) ∧
      (DecRef.construct ⟨"r0", list_rprimitive⟩ false).elim True
        (fun op => op.src.type.is_refcounted = true) :=
  ⟨incref_decref_refcounted_spec.1 ⟨"r0", list_rprimitive⟩ ⟨⟨"r0", list_rprimitive⟩⟩ rfl,
   incref_decref_refcounted_spec.2.1 ⟨"r0", list_rprimitive⟩ false
     ⟨⟨"r0", list_rprimitive⟩, false⟩ rfl⟩

/-- Result values of constant folding (`ConstantValue` in
`mypy/constant_fold.py`): int, bool, float or str.  Float values are kept
opaque; the folder never computes with them (only int and str operands are
dispatched on). -/
inductive ConstantValue where
  | intVal (i : Int)
  | boolVal (b : Bool)
  | floatVal (lit : String)
  | strVal (s : String)
deriving DecidableEq

/-- Python `isinstance(x, int)` on a folded value: true for int and for bool
(bool is a subclass of int), converting `True`/`False` to `1`/`0`. -/
def ConstantValue.asPyInt : ConstantValue → Option Int
  | .intVal i => some i
  | .boolVal b => some (if b then 1 else 0)
  | _ => none

/-- Python `isinstance(x, str)` on a folded value. -/
def ConstantValue.asPyStr : ConstantValue → Option String
  | .strVal s => some s
  | _ => none

/-- `constant_fold_binary_int_op` from `mypy/constant_fold.py`: exact integer
arithmetic with Python semantics (`//` and `%` are floor division and modulus
and are not folded when the right operand is zero; `<<`, `>>`, `**` are not
folded for a negative right operand; `~` is two's complement). -/
def constant_fold_binary_int_op (op : String) (left right : Int) : Option Int :=
  if op = "+" then some (left + right)
  else if op = "-" then some (left - right)
  else if op = "*" then some (left * right)
  else if op = "//" then (if right ≠ 0 then some (Int.fdiv left right) else none)
  else if op = "%" then (if right ≠ 0 then some (Int.fmod left right) else none)
  else if op = "&" then some (Int.land left right)
  else if op = "|" then some (Int.lor left right)
  else if op = "^" then some (Int.xor left right)
  else if op = "<<" then (if 0 ≤ right then some (left * 2 ^ right.toNat) else none)
  else if op = ">>" then (if 0 ≤ right then some (Int.fdiv left (2 ^ right.toNat)) else none)
  else if op = "**" then (if 0 ≤ right then some (left ^ right.toNat) else none)
  else none

/-- `constant_fold_unary_int_op` from `mypy/constant_fold.py` (Python `~v`
is `-v - 1`). -/
def constant_fold_unary_int_op (op : String) (value : Int) : Option Int :=
  if op = "-" then some (-value)
  else if op = "~" then some (-value - 1)
  else if op = "+" then some value
  else none

/-- `constant_fold_binary_str_op` from `mypy/constant_fold.py`. -/
def constant_fold_binary_str_op (op : String) (left right : String) : Option String :=
  if op = "+" then some (left ++ right) else none

/-- A `Var` node as consulted by the folder: `fullname`, `is_final` and the
stored `final_value`. -/
structure VarNode where
  fullname : String
  is_final : Bool
  final_value : Option ConstantValue

/-- `fullname.rsplit(".", 1)[0]`: everything before the last dot, or the
whole string when there is no dot. -/
def rsplitModule (fullname : String) : String :=
  let parts := fullname.splitOn "."
  if parts.length ≤ 1 then fullname
  else String.intercalate "." parts.dropLast

/-- The expression forms dispatched on by `constant_fold_expr` in
`mypy/constant_fold.py`. -/
inductive Expression where
  | intExpr (value : Int)
  | strExpr (value : String)
  | floatExpr (value : String)
  | nameExpr (name : String) (node : Option VarNode)
  | opExpr (op : String) (left right : Expression)
  | unaryExpr (op : String) (expr : Expression)

/-- `constant_fold_expr` from `mypy/constant_fold.py`: literals fold to their
value, `True`/`False` fold to booleans, a final `Var` of the current module
folds to its stored `final_value`, binary ops fold when both operands fold to
ints (or both to strs), unary ops when the operand folds to an int. -/
def constant_fold_expr (expr : Expression) (cur_mod_id : String) : Option ConstantValue :=
  match expr with
  | .intExpr v => some (.intVal v)
  | .strExpr s => some (.strVal s)
  | .floatExpr f => some (.floatVal f)
  | .nameExpr nm node =>
    if nm = "True" then some (.boolVal true)
    else if nm = "False" then some (.boolVal false)
    else
      match node with
      | some var =>
        if var.is_final && (rsplitModule var.fullname == cur_mod_id) then
          var.final_value
        else none
      | none => none
  | .opExpr op l r =>
    let lv := constant_fold_expr l cur_mod_id
    let rv := constant_fold_expr r cur_mod_id
    match lv.bind ConstantValue.asPyInt, rv.bind ConstantValue.asPyInt with
    | some li, some ri => (constant_fold_binary_int_op op li ri).map .intVal
    | _, _ =>
      match lv.bind ConstantValue.asPyStr, rv.bind ConstantValue.asPyStr with
      | some ls, some rs => (constant_fold_binary_str_op op ls rs).map .strVal
      | _, _ => none
  | .unaryExpr op sub =>
    match (constant_fold_expr sub cur_mod_id).bind ConstantValue.asPyInt with
    | some v => (constant_fold_unary_int_op op v).map .intVal
    | none => none

/-- C4: constant folding of integer expressions is exact integer arithmetic
with floor semantics for `//`: `3 + 5 * 2` folds to `13`, `7 // 2` to `3`,
`-7 // 2` to `-4` (also as a folded expression through the unary minus), and
`//` or `%` by zero is not folded: the folder returns the not-folded sentinel
instead of raising. -/
theorem constant_fold_int_spec :
    constant_fold_expr (.opExpr "+" (.intExpr 3) (.opExpr "*" (.intExpr 5) (.intExpr 2))) "m"
      = some (.intVal 13) ∧
    constant_fold_binary_int_op "//" 7 2 = some 3 ∧
    constant_fold_binary_int_op "//" (-7) 2 = some (-4) ∧
    constant_fold_expr (.opExpr "//" (.unaryExpr "-" (.intExpr 7)) (.intExpr 2)) "m"
      = some (.intVal (-4)) ∧
    constant_fold_expr (.opExpr "//" (.intExpr 13) (.intExpr 0)) "m" = none ∧
    (∀ l : Int, constant_fold_binary_int_op "//" l 0 = none) ∧
    (∀ l : Int, constant_fold_binary_int_op "%" l 0 = none) ∧
    (∀ l r : Int, constant_fold_binary_int_op "+" l r = some (l + r)) ∧
    (∀ l r : Int, constant_fold_binary_int_op "-" l r = some (l - r)) ∧
    (∀ l r : Int, constant_fold_binary_int_op "*" l r = some (l * r)) ∧
    (∀ l r : Int, r ≠ 0 → constant_fold_binary_int_op "//" l r = some (Int.fdiv l r)) := by
  refine ⟨by decide, by decide, by decide, by decide, by decide, ?_, ?_, ?_, ?_, ?_, ?_⟩
  · intro l
    simp [constant_fold_binary_int_op]
  · intro l
    simp [constant_fold_binary_int_op]
  · intro l r
    simp [constant_fold_binary_int_op]
  · intro l r
    simp [constant_fold_binary_int_op]
  · intro l r
    simp [constant_fold_binary_int_op]
  · intro l r h
    simp [constant_fold_binary_int_op, h]

/-- C4 witness: the floor-division characterization applied at `7 // 2`. -/
theorem constant_fold_int_spec_witness :
    constant_fold_binary_int_op "//" 7 2 = some (Int.fdiv 7 2) :=
  constant_fold_int_spec.2.2.2.2.2.2.2.2.2.2 7 2 (by decide)

/-- The `name` attribute consulted by the Python-level `RType.__eq__` and
`RType.__hash__` (`mypyc/ops.py`): `RTuple.__init__` sets `name = 'tuple'`,
`RUnion.__init__` sets `name = 'union'`, `RVoid` has `name = 'void'`,
`RInstance` uses the class's full name. -/
def RType.pyName : RType → String
  | .rprimitive p => p.name
  | .rtuple _ => "tuple"
  | .rinstance c => c.fullname
  | .runion _ => "union"
  | .rvoid => "void"

/-- A concrete stand-in for the opaque Python string hash. -/
def strHash (s : String) : Nat :=
  s.foldl (fun a c => a * 131 + c.toNat) 7

/-- A concrete stand-in for Python tuple hashing of a pair. -/
def pairHash (a b : Nat) : Nat := a * 1000003 + b

mutual
/-- Python `hash` of a runtime type: the base `RType.__hash__` is
`hash(self.name)`; `RTuple.__hash__` is `hash((self.name, self.types))`;
`RUnion.__hash__` is `hash(('union', self.items_set))`, a function of the
frozen item set, modelled as an order- and duplicate-insensitive combination
(a finite-set sum) of the element hashes. -/
def pyHash : RType → Nat
  | .rtuple ts => pairHash (strHash "tuple") (pyHashTuple ts)
  | .runion xs => pairHash (strHash "union") ((pyHashes xs).toFinset.sum id)
  | t => strHash t.pyName

def pyHashTuple : List RType → Nat
  | [] => 1
  | t :: ts => pairHash (pyHash t) (pyHashTuple ts)

def pyHashes : List RType → List Nat
  | [] => []
  | t :: ts => pyHash t :: pyHashes ts
end

mutual
/-- Python `==` on runtime types (`mypyc/ops.py`): `RTuple.__eq__` compares
the element tuples element-wise, `RUnion.__eq__` compares the frozen item
sets, and the base `RType.__eq__` (primitives, instances, void) compares
names. -/
def pyEq : RType → RType → Bool
  | .rtuple ts, u =>
    match u with
    | .rtuple us => pyEqList ts us
    | _ => false
  | .runion xs, u =>
    match u with
    | .runion ys => pySubset xs ys && pySubset ys xs
    | _ => false
  | t, u => t.pyName == u.pyName

termination_by t u => sizeOf t + sizeOf u
decreasing_by all_goals (simp_wf; try omega)

def pyEqList : List RType → List RType → Bool
  | [], [] => true
  | x :: xs, y :: ys => pyEq x y && pyEqList xs ys
  | _, _ => false
termination_by xs ys => sizeOf xs + sizeOf ys
decreasing_by all_goals (simp_wf; try omega)

/-- One inclusion of the frozenset comparison: every element of the first
list occurs in the second. -/
def pySubset : List RType → List RType → Bool
  | [], _ => true
  | x :: xs, ys => pyMemList x ys && pySubset xs ys
termination_by xs ys => sizeOf xs + sizeOf ys
decreasing_by all_goals (simp_wf; try omega)

/-- Membership probe of a CPython (frozen)set: an entry matches the probed
key when its hash matches and the entry compares equal to the key. -/
def pyMemList (x : RType) : List RType → Bool
  | [] => false
  | y :: ys => (pyHash y == pyHash x && pyEq y x) || pyMemList x ys
termination_by ys => sizeOf x + sizeOf ys
decreasing_by all_goals (simp_wf; try omega)
end

/-- Equality of the frozen item sets `frozenset(u1.items) ==
frozenset(u2.items)`, modelled as mutual hash-gated inclusion. -/
def frozenSetEq (xs ys : List RType) : Bool :=
  pySubset xs ys && pySubset ys xs

theorem pyMemList_eq_any (x : RType) (ys : List RType) :
    pyMemList x ys = ys.any fun y => pyHash y == pyHash x && pyEq y x := by
  induction ys with
  | nil => simp [pyMemList]
  | cons y ys ih => simp [pyMemList, ih]

theorem pySubset_eq_all (xs ys : List RType) :
    pySubset xs ys = xs.all fun x => pyMemList x ys := by
  induction xs with
  | nil => simp [pySubset]
  | cons x xs ih => simp [pySubset, ih]

theorem pyHashes_eq_map (xs : List RType) : pyHashes xs = xs.map pyHash := by
  induction xs with
  | nil => rfl
  | cons x xs ih => simp [pyHashes, ih]

theorem pyEqList_refl (ts : List RType) (h : ∀ x ∈ ts, pyEq x x = true) :
    pyEqList ts ts = true := by
  induction ts with
  | nil => simp [pyEqList]
  | cons x xs ih =>
    simp only [pyEqList, Bool.and_eq_true]
    exact ⟨h x (List.mem_cons_self x xs), ih fun y hy => h y (List.mem_cons_of_mem x hy)⟩

theorem pyMemList_of_mem {x : RType} {ys : List RType} (hm : x ∈ ys)
    (hx : pyEq x x = true) : pyMemList x ys = true := by
  rw [pyMemList_eq_any, List.any_eq_true]
  exact ⟨x, hm, by simp [hx]⟩

theorem pySubset_of_subset {xs ys : List RType} (hsub : xs ⊆ ys)
    (h : ∀ x ∈ xs, pyEq x x = true) : pySubset xs ys = true := by
  rw [pySubset_eq_all, List.all_eq_true]
  intro x hx
  exact pyMemList_of_mem (hsub hx) (h x hx)

theorem pyEq_refl_aux (n : Nat) : ∀ t : RType, sizeOf t < n → pyEq t t = true := by
  induction n with
  | zero => intro t ht; omega
  | succ n ih =>
    intro t ht
    match t with
    | .rprimitive p => simp [pyEq, RType.pyName]
    | .rvoid => simp [pyEq, RType.pyName]
    | .rinstance c => simp [pyEq, RType.pyName]
    | .rtuple ts =>
      have hts : ∀ x ∈ ts, pyEq x x = true := by
        intro x hx
        have hs := List.sizeOf_lt_of_mem hx
        simp only [RType.rtuple.sizeOf_spec] at ht
        exact ih x (by omega)
      simp only [pyEq]
      exact pyEqList_refl ts hts
    | .runion xs =>
      have hxs : ∀ x ∈ xs, pyEq x x = true := by
        intro x hx
        have hs := List.sizeOf_lt_of_mem hx
        simp only [RType.runion.sizeOf_spec] at ht
        exact ih x (by omega)
      simp only [pyEq, Bool.and_eq_true]
      exact ⟨pySubset_of_subset (fun a ha => ha) hxs, pySubset_of_subset (fun a ha => ha) hxs⟩

theorem pyEq_refl (t : RType) : pyEq t t = true :=
  pyEq_refl_aux (sizeOf t + 1) t (by omega)

theorem hash_toFinset_subset {xs ys : List RType} (h : pySubset xs ys = true) :
    (xs.map pyHash).toFinset ⊆ (ys.map pyHash).toFinset := by
  rw [pySubset_eq_all, List.all_eq_true] at h
  intro a ha
  simp only [List.mem_toFinset, List.mem_map] at ha ⊢
  obtain ⟨x, hx, rfl⟩ := ha
  have hmem := h x hx
  rw [pyMemList_eq_any, List.any_eq_true] at hmem
  obtain ⟨y, hy, hmatch⟩ := hmem
  simp only [Bool.and_eq_true, beq_iff_eq] at hmatch
  exact ⟨y, hy, hmatch.1⟩

/-- C5: `RUnion.__eq__` is equality of the frozen item sets, hence
insensitive to item order and to duplicate items; `RUnion.__hash__` is
computed from the frozen item set, so equal unions always have equal hashes. -/
theorem runion_eq_spec :
    (∀ xs ys : List RType, pyEq (.runion xs) (.runion ys) = frozenSetEq xs ys) ∧
    (∀ xs : List RType, pyEq (.runion xs) (.runion xs.reverse) = true) ∧
    (∀ (x : RType) (xs : List RType),
      pyEq (.runion (x :: x :: xs)) (.runion (x :: xs)) = true) ∧
    (∀ xs : List RType,
      pyHash (.runion xs) = pairHash (strHash "union") ((xs.map pyHash).toFinset.sum id)) ∧
    (∀ xs ys : List RType, pyEq (.runion xs) (.runion ys) = true →
      pyHash (.runion xs) = pyHash (.runion ys)) := by
  have hrw : ∀ xs ys : List RType,
      pyEq (.runion xs) (.runion ys) = (pySubset xs ys && pySubset ys xs) := by
    intro xs ys
    simp [pyEq]
  refine ⟨?_, ?_, ?_, ?_, ?_⟩
  · intro xs ys
    rw [hrw]
    rfl
  · intro xs
    rw [hrw]
    simp only [Bool.and_eq_true]
    constructor
    · exact pySubset_of_subset (fun a ha => by simpa using ha) fun x _ => pyEq_refl x
    · exact pySubset_of_subset (fun a ha => by simpa using ha) fun x _ => pyEq_refl x
  · intro x xs
    rw [hrw]
    simp only [Bool.and_eq_true]
    constructor
    · refine pySubset_of_subset (fun a ha => ?_) fun y _ => pyEq_refl y
      simp only [List.mem_cons] at ha ⊢
      tauto
    · refine pySubset_of_subset (fun a ha => ?_) fun y _ => pyEq_refl y
      simp only [List.mem_cons] at ha ⊢
      tauto
  · intro xs
    simp [pyHash, pyHashes_eq_map]
  · intro xs ys h
    rw [hrw, Bool.and_eq_true] at h
    have h1 := hash_toFinset_subset h.1
    have h2 := hash_toFinset_subset h.2
    have : (xs.map pyHash).toFinset = (ys.map pyHash).toFinset :=
      Finset.Subset.antisymm h1 h2
    simp [pyHash, pyHashes_eq_map, this]

/-- C5 witness: two unions with the same items in different order are equal
and therefore have equal hashes. -/
theorem runion_eq_spec_witness :
    pyHash (.runion [int_rprimitive, bool_rprimitive]) =
      pyHash (.runion [bool_rprimitive, int_rprimitive]) :=
  runion_eq_spec.2.2.2.2 [int_rprimitive, bool_rprimitive]
    [bool_rprimitive, int_rprimitive]
    (runion_eq_spec.2.1 [int_rprimitive, bool_rprimitive])

/-- Ops as consumed by the dataflow visitors of `mypyc/analysis.py`.  The
analysis module addresses the register-index IR its visitors expect: sets of
`int` registers, every register-producing op carrying an optional destination
`op.dest` and source registers `op.sources()`, and `Branch` carrying two
operand registers `left` and `right`. -/
inductive AOp where
  | goto (label : Nat)
  | branch (left right : Nat) (trueLabel falseLabel : Nat)
  | ret (reg : Nat)
  | unreachable
  | regOp (dest : Option Nat) (sources : List Nat)

/-- A basic block for the dataflow framework: a label and its ops. -/
structure ABasicBlock where
  label : Nat
  ops : List AOp

/-- The successors contributed by a block's last op in `get_cfg`
(`mypyc/analysis.py`): a `Branch` yields its two target labels, a `Goto` its
target, anything else none (the block is an exit).  `get_cfg` indexes
`block.ops[-1]` and so requires nonempty blocks. -/
def blockSucc (b : ABasicBlock) : List Nat :=
  match b.ops.getLast? with
  | some (.branch _ _ t f) => [t, f]
  | some (.goto l) => [l]
  | _ => []

/-- Control-flow graph (`CFG` in `mypyc/analysis.py`): successor and
predecessor maps plus the exit set. -/
structure CFG where
  succ : Nat → List Nat
  pred : Nat → List Nat
  exits : List Nat

/-- `get_cfg` from `mypyc/analysis.py`. -/
def get_cfg (blocks : List ABasicBlock) : CFG :=
  let succAssoc := blocks.map fun b => (b.label, blockSucc b)
  { succ := fun l => (succAssoc.lookup l).getD []
    pred := fun l =>
      succAssoc.foldr
        (fun pr acc => pr.2.foldr (fun x a => if x = l then pr.1 :: a else a) acc) []
    exits := (blocks.filter fun b => blockSucc b = []).map (·.label) }

/-- `LivenessVisitor` of `mypyc/analysis.py`: a `Branch` uses both of its
operand registers as sources, `Return` uses the returned register, and a
register-producing op generates its sources and kills its destination. -/
def livenessGenKill : AOp → Finset Nat × Finset Nat
  | .goto _ => (∅, ∅)
  | .branch l r _ _ => ({l, r}, ∅)
  | .ret r => ({r}, ∅)
  | .unreachable => (∅, ∅)
  | .regOp dest srcs =>
    (srcs.toFinset, match dest with | some d => {d} | none => ∅)

/-- `MUST_ANALYSIS` / `MAYBE_ANALYSIS` from `mypyc/analysis.py`. -/
inductive AnalysisKind where
  | mustAnalysis
  | maybeAnalysis

/-- The join of `run_analysis`: union for a MAYBE analysis, intersection for
a MUST analysis. -/
def joinSets (kind : AnalysisKind) (a b : Finset Nat) : Finset Nat :=
  match kind with
  | .maybeAnalysis => a ∪ b
  | .mustAnalysis => a ∩ b

/-- The per-block gen/kill fold of `run_analysis`: ops in program order
(reversed for a backward analysis), with
`gen = (gen - opkill) | opgen` and `kill = (kill - opgen) | opkill`. -/
def blockGenKill (genKill : AOp → Finset Nat × Finset Nat) (backward : Bool)
    (b : ABasicBlock) : Finset Nat × Finset Nat :=
  let ops := if backward then b.ops.reverse else b.ops
  ops.foldl
    (fun acc op =>
      let gk := genKill op
      ((acc.1 \ gk.2) ∪ gk.1, (acc.2 \ gk.1) ∪ gk.2))
    (∅, ∅)

/-- The worklist iteration of `run_analysis` (`while worklist:` with LIFO
pop), made total with an explicit fuel argument; the Python loop terminates
because the per-block sets evolve monotonically over a finite lattice. -/
def worklistLoop (pred succ : Nat → List Nat) (blockGen blockKill : Nat → Finset Nat)
    (kind : AnalysisKind) (initial : Finset Nat) :
    Nat → List Nat → Finset Nat → (Nat → Finset Nat) → (Nat → Finset Nat) →
      (Nat → Finset Nat) × (Nat → Finset Nat)
  | 0, _, _, before, after => (before, after)
  | fuel + 1, worklist, workset, before, after =>
    match worklist.getLast? with
    | none => (before, after)
    | some label =>
      let worklist1 := worklist.dropLast
      let workset1 := workset.erase label
      let newBefore :=
        match pred label with
        | [] => initial
        | p :: ps => ps.foldl (fun acc q => joinSets kind acc (after q)) (after p)
      let before1 := fun l => if l = label then newBefore else before l
      let newAfter := (newBefore ∪ blockGen label) \ blockKill label
      let next :=
        if newAfter ≠ after label then
          (succ label).foldl
            (fun (acc : List Nat × Finset Nat) sc =>
              if sc ∈ acc.2 then acc else (acc.1 ++ [sc], insert sc acc.2))
            (worklist1, workset1)
        else (worklist1, workset1)
      let after1 := fun l => if l = label then newAfter else after l
      worklistLoop pred succ blockGen blockKill kind initial fuel next.1 next.2 before1 after1

/-- The final per-op sweep of `run_analysis`: starting from the block's
fixed-point `before` set, fold the ops (reversed for a backward analysis),
recording the set before and after each op. -/
def opSweep (genKill : AOp → Finset Nat × Finset Nat) (backward : Bool)
    (before : Nat → Finset Nat) (b : ABasicBlock) :
    List ((Nat × Nat) × Finset Nat) × List ((Nat × Nat) × Finset Nat) :=
  let idxOps := b.ops.enum
  let order := if backward then idxOps.reverse else idxOps
  let folded :=
    order.foldl
      (fun (acc : Finset Nat × List ((Nat × Nat) × Finset Nat) ×
          List ((Nat × Nat) × Finset Nat)) pr =>
        let gk := genKill pr.2
        let cur2 := (acc.1 \ gk.2) ∪ gk.1
        (cur2, ((b.label, pr.1), acc.1) :: acc.2.1, ((b.label, pr.1), cur2) :: acc.2.2))
      (before b.label, [], [])
  (folded.2.1, folded.2.2)

/-- `run_analysis` from `mypyc/analysis.py`: per-block gen/kill, the LIFO
worklist to a fixed point (with explicit fuel), the per-op sweep, and the
before/after swap for backward analyses. -/
def run_analysis (blocks : List ABasicBlock) (cfg : CFG)
    (genKill : AOp → Finset Nat × Finset Nat) (initial : Finset Nat)
    (kind : AnalysisKind) (backward : Bool) (univ : Finset Nat) (fuel : Nat) :
    (Nat × Nat → Finset Nat) × (Nat × Nat → Finset Nat) :=
  let blockAssoc := blocks.map fun b => (b.label, blockGenKill genKill backward b)
  let blockGen := fun l => ((blockAssoc.lookup l).getD (∅, ∅)).1
  let blockKill := fun l => ((blockAssoc.lookup l).getD (∅, ∅)).2
  let labels := blocks.map (·.label)
  let worklist0 := if !backward then labels.reverse else labels
  let workset0 := worklist0.toFinset
  let start : Nat → Finset Nat := fun _ =>
    match kind with
    | .maybeAnalysis => ∅
    | .mustAnalysis => univ
  let predM := if backward then cfg.succ else cfg.pred
  let succM := if backward then cfg.pred else cfg.succ
  let fixed := worklistLoop predM succM blockGen blockKill kind initial fuel
    worklist0 workset0 start start
  let entries :=
    blocks.foldl
      (fun (acc : List ((Nat × Nat) × Finset Nat) × List ((Nat × Nat) × Finset Nat)) b =>
        let swept := opSweep genKill backward fixed.1 b
        (acc.1 ++ swept.1, acc.2 ++ swept.2))
      ([], [])
  let opBefore := fun pr => ((entries.1.lookup pr).getD ∅)
  let opAfter := fun pr => ((entries.2.lookup pr).getD ∅)
  if backward then (opAfter, opBefore) else (opBefore, opAfter)

/-- `analyze_live_regs` from `mypyc/analysis.py`: the liveness analysis is
`run_analysis` with the liveness gen/kill visitor, backward direction, MAYBE
kind and empty initial set (the universe argument is unused for MAYBE). -/
def analyze_live_regs (blocks : List ABasicBlock) (cfg : CFG) (fuel : Nat) :
    (Nat × Nat → Finset Nat) × (Nat × Nat → Finset Nat) :=
  run_analysis blocks cfg livenessGenKill ∅ .maybeAnalysis true ∅ fuel

/-- The straight-line function `a = 1; b = a + 1; return b`, with register 0
for `a` and register 1 for `b`: the first op defines `a` from no sources, the
second defines `b` reading `a`, the third returns `b`. -/
def straightLineExample : List ABasicBlock :=
  [⟨0, [.regOp (some 0) [], .regOp (some 1) [0], .ret 1]⟩]

/-- C3: liveness is the backward MAYBE dataflow whose visitor generates the
sources and kills the destination of every register-producing op, uses both
operand registers of a `Branch` and the returned register of a `Return`; on
`a = 1; b = a + 1; return b` the after-set of the first op contains the
register for `a`, and the after-set of the second op contains the register
for `b` and not the register for `a`. -/
theorem liveness_spec :
    (∀ l r t f, livenessGenKill (.branch l r t f) = ({l, r}, ∅)) ∧
    (∀ r, livenessGenKill (.ret r) = ({r}, ∅)) ∧
    (∀ d srcs, livenessGenKill (.regOp (some d) srcs) = (srcs.toFinset, {d})) ∧
    (∀ srcs, livenessGenKill (.regOp none srcs) = (srcs.toFinset, ∅)) ∧
    (∀ blocks cfg fuel, analyze_live_regs blocks cfg fuel =
      run_analysis blocks cfg livenessGenKill ∅ .maybeAnalysis true ∅ fuel) ∧
    (0 ∈ (analyze_live_regs straightLineExample (get_cfg straightLineExample) 8).2 (0, 0) ∧
     1 ∈ (analyze_live_regs straightLineExample (get_cfg straightLineExample) 8).2 (0, 1) ∧
     0 ∉ (analyze_live_regs straightLineExample (get_cfg straightLineExample) 8).2 (0, 1)) := by
  refine ⟨fun l r t f => rfl, fun r => rfl, fun d srcs => rfl, fun srcs => rfl,
    fun blocks cfg fuel => rfl, ?_, ?_, ?_⟩ <;> decide

/-- The JSON shapes produced by `RType.serialize` in `mypyc/ops.py`: either a
bare string, or a dict `{'.class': cls, 'types': [...]}`. -/
inductive SerData where
  | str (s : String)
  | dict (cls : String) (types : List SerData)

mutual
/-- `RType.serialize`: a primitive serializes as its bare name, `RVoid` as
the string `"void"`, `RInstance` as the class's fully-qualified name, and
`RTuple`/`RUnion` as dicts with discriminator key `.class`. -/
def RType.serialize : RType → SerData
  | .rprimitive p => .str p.name
  | .rvoid => .str "void"
  | .rinstance c => .str c.fullname
  | .rtuple ts => .dict "RTuple" (serializeList ts)
  | .runion xs => .dict "RUnion" (serializeList xs)

def serializeList : List RType → List SerData
  | [] => []
  | t :: ts => RType.serialize t :: serializeList ts
end

/-- The process-wide `RPrimitive.primitive_map` built by the eleven
module-level `RPrimitive(...)` registrations in `mypyc/ops.py`. -/
def primitive_map : List (String × RPrimData) :=
  [("builtins.object", objectPrim), ("builtins.int", intPrim),
   ("short_int", shortIntPrim), ("builtins.float", floatPrim),
   ("builtins.bool", boolPrim), ("builtins.None", nonePrim),
   ("builtins.list", listPrim), ("builtins.dict", dictPrim),
   ("builtins.set", setPrim), ("builtins.str", strPrim),
   ("builtins.tuple", tuplePrim)]

/-- `DeserMaps` from `mypyc/ops.py`, restricted to the `classes` map
(`deserialize_type` never consults the `functions` map). -/
structure DeserMaps where
  classes : List (String × ClassIR)

mutual
/-- `deserialize_type` from `mypyc/ops.py`: a string is looked up first in
`ctx.classes`, then in the primitive registry, then compared with `"void"`,
otherwise it is a fatal error; a dict dispatches on its `.class` key to
`RTuple.deserialize` or `RUnion.deserialize`, and any other `.class` value is
the fatal error `unexpected .class <x>`. -/
def deserialize_type : SerData → DeserMaps → Except String RType
  | .str s, ctx =>
    match ctx.classes.lookup s with
    | some c => .ok (.rinstance c)
    | none =>
      match primitive_map.lookup s with
      | some p => .ok (.rprimitive p)
      | none =>
        if s = "void" then .ok .rvoid
        else .error ("Can't find class " ++ s)
  | .dict cls types, ctx =>
    if cls = "RTuple" then
      match deserializeList types ctx with
      | .ok ts => .ok (.rtuple ts)
      | .error e => .error e
    else if cls = "RUnion" then
      match deserializeList types ctx with
      | .ok ts => .ok (.runion ts)
      | .error e => .error e
    else .error ("unexpected .class " ++ cls)

def deserializeList : List SerData → DeserMaps → Except String (List RType)
  | [], _ => .ok []
  | d :: ds, ctx =>
    match deserialize_type d ctx with
    | .error e => .error e
    | .ok t =>
      match deserializeList ds ctx with
      | .error e => .error e
      | .ok ts => .ok (t :: ts)
end

mutual
/-- The hypotheses under which the round trip is claimed: every `RInstance`
class name in the type is registered in the `classes` map (resolving to a
class of the same full name), and no name the type serializes through (a
primitive name, or `"void"`) is shadowed by an entry of the `classes` map. -/
def serializable (ctx : DeserMaps) : RType → Bool
  | .rprimitive p =>
    (primitive_map.lookup p.name).isSome && (ctx.classes.lookup p.name).isNone
  | .rinstance c =>
    match ctx.classes.lookup c.fullname with
    | some c' => c'.fullname == c.fullname
    | none => false
  | .rtuple ts => serializableList ctx ts
  | .runion xs => serializableList ctx xs
  | .rvoid => (ctx.classes.lookup "void").isNone

def serializableList (ctx : DeserMaps) : List RType → Bool
  | [] => true
  | t :: ts => serializable ctx t && serializableList ctx ts
end

theorem lookup_name_eq {l : List (String × RPrimData)}
    (hl : ∀ pr ∈ l, pr.2.name = pr.1) :
    ∀ {s : String} {q : RPrimData}, l.lookup s = some q → q.name = s := by
  induction l with
  | nil => intro s q h; simp [List.lookup] at h
  | cons hd tl ih =>
    intro s q h
    rw [List.lookup] at h
    by_cases he : s == hd.1
    · simp only [he] at h
      cases h
      rw [hl hd (List.mem_cons_self hd tl)]
      exact (beq_iff_eq.mp he).symm
    · have he' : (s == hd.1) = false := by simpa using he
      simp only [he'] at h
      exact ih (fun pr hpr => hl pr (List.mem_cons_of_mem hd hpr)) h

theorem pyMemList_cons_of {x : RType} {ys : List RType} (z : RType)
    (h : pyMemList x ys = true) : pyMemList x (z :: ys) = true := by
  simp only [pyMemList, Bool.or_eq_true]
  exact Or.inr h

theorem pySubset_cons_right {as : List RType} {bs : List RType} (z : RType)
    (h : pySubset as bs = true) : pySubset as (z :: bs) = true := by
  induction as with
  | nil => simp [pySubset]
  | cons a as ih =>
    simp only [pySubset, Bool.and_eq_true] at h ⊢
    exact ⟨pyMemList_cons_of z h.1, ih h.2⟩

theorem pySubset_of_rev :
    ∀ {as bs : List RType}, pyEqList bs as = true →
      List.map pyHash as = List.map pyHash bs → pySubset as bs = true := by
  intro as
  induction as with
  | nil => intro bs _ _; simp [pySubset]
  | cons a as ih =>
    intro bs hrev hmap
    cases bs with
    | nil => simp [pyEqList] at hrev
    | cons b bs =>
      simp only [pyEqList, Bool.and_eq_true] at hrev
      simp only [List.map_cons, List.cons.injEq] at hmap
      simp only [pySubset, Bool.and_eq_true]
      constructor
      · simp only [pyMemList, Bool.or_eq_true, Bool.and_eq_true, beq_iff_eq]
        exact Or.inl ⟨hmap.1.symm, hrev.1⟩
      · exact pySubset_cons_right b (ih hrev.2 hmap.2)

theorem pyHashTuple_eq_of_map :
    ∀ {as bs : List RType}, List.map pyHash as = List.map pyHash bs →
      pyHashTuple as = pyHashTuple bs := by
  intro as
  induction as with
  | nil =>
    intro bs hmap
    cases bs with
    | nil => rfl
    | cons b bs => simp at hmap
  | cons a as ih =>
    intro bs hmap
    cases bs with
    | nil => simp at hmap
    | cons b bs =>
      simp only [List.map_cons, List.cons.injEq] at hmap
      simp only [pyHashTuple, hmap.1, ih hmap.2]

theorem roundtrip_aux (n : Nat) :
    (∀ (t : RType) (ctx : DeserMaps), sizeOf t < n → serializable ctx t = true →
      ∃ t', deserialize_type (RType.serialize t) ctx = .ok t' ∧
        pyEq t' t = true ∧ pyEq t t' = true ∧ pyHash t' = pyHash t) ∧
    (∀ (ts : List RType) (ctx : DeserMaps), sizeOf ts < n →
      serializableList ctx ts = true →
      ∃ ts', deserializeList (serializeList ts) ctx = .ok ts' ∧
        pyEqList ts' ts = true ∧ pyEqList ts ts' = true ∧
        List.map pyHash ts' = List.map pyHash ts) := by
  induction n with
  | zero =>
    constructor
    · intro t ctx ht; omega
    · intro ts ctx ht; omega
  | succ n ih =>
    obtain ⟨ihT, ihL⟩ := ih
    constructor
    · intro t ctx ht hser
      match t with
      | .rprimitive p =>
        simp only [serializable, Bool.and_eq_true, Option.isSome_iff_exists,
          Option.isNone_iff_eq_none] at hser
        obtain ⟨⟨q, hq⟩, hcl⟩ := hser
        have hname : q.name = p.name := lookup_name_eq (by decide) hq
        refine ⟨.rprimitive q, ?_, ?_, ?_, ?_⟩
        · simp [RType.serialize, deserialize_type, hcl, hq]
        · simp [pyEq, RType.pyName, hname]
        · simp [pyEq, RType.pyName, hname]
        · simp [pyHash, RType.pyName, hname]
      | .rvoid =>
        simp only [serializable, Option.isNone_iff_eq_none] at hser
        refine ⟨.rvoid, ?_, by simp [pyEq, RType.pyName], by simp [pyEq, RType.pyName], rfl⟩
        simp only [RType.serialize, deserialize_type, hser]
        rfl
      | .rinstance c =>
        simp only [serializable] at hser
        match hcl : ctx.classes.lookup c.fullname with
        | some c' =>
          rw [hcl] at hser
          have hname : c'.fullname = c.fullname := beq_iff_eq.mp hser
          refine ⟨.rinstance c', ?_, ?_, ?_, ?_⟩
          · simp [RType.serialize, deserialize_type, hcl]
          · simp [pyEq, RType.pyName, hname]
          · simp [pyEq, RType.pyName, hname]
          · simp [pyHash, RType.pyName, hname]
        | none => rw [hcl] at hser; exact absurd hser (by simp)
      | .rtuple ts =>
        simp only [serializable] at hser
        simp only [RType.rtuple.sizeOf_spec] at ht
        obtain ⟨ts', h1, h2, h3, h4⟩ := ihL ts ctx (by omega) hser
        refine ⟨.rtuple ts', ?_, ?_, ?_, ?_⟩
        · simp [RType.serialize, deserialize_type, h1]
        · simp [pyEq, h2]
        · simp [pyEq, h3]
        · simp [pyHash, pyHashTuple_eq_of_map h4]
      | .runion xs =>
        simp only [serializable] at hser
        simp only [RType.runion.sizeOf_spec] at ht
        obtain ⟨xs', h1, h2, h3, h4⟩ := ihL xs ctx (by omega) hser
        have hsub1 : pySubset xs' xs = true := pySubset_of_rev h3 h4
        have hsub2 : pySubset xs xs' = true := pySubset_of_rev h2 h4.symm
        refine ⟨.runion xs', ?_, ?_, ?_, ?_⟩
        · simp [RType.serialize, deserialize_type, h1]
        · simp [pyEq, hsub1, hsub2]
        · simp [pyEq, hsub1, hsub2]
        · simp [pyHash, pyHashes_eq_map, h4]
    · intro ts ctx ht hser
      match ts with
      | [] =>
        exact ⟨[], by simp [serializeList, deserializeList],
          by simp [pyEqList], by simp [pyEqList], rfl⟩
      | t :: ts =>
        simp only [serializableList, Bool.and_eq_true] at hser
        simp only [List.cons.sizeOf_spec] at ht
        obtain ⟨t', ht1, ht2, ht3, ht4⟩ := ihT t ctx (by omega) hser.1
        obtain ⟨ts', hl1, hl2, hl3, hl4⟩ := ihL ts ctx (by omega) hser.2
        refine ⟨t' :: ts', ?_, ?_, ?_, ?_⟩
        · simp [serializeList, deserializeList, ht1, hl1]
        · simp [pyEqList, ht2, hl2]
        · simp [pyEqList, ht3, hl3]
        · simp [ht4, hl4]

/-- C9: a registered primitive serializes as its bare name string, `RVoid` as
`"void"`, `RInstance` as its class's fully-qualified name, `RTuple`/`RUnion`
as dicts with discriminator key `.class`; whenever every class name of the
type is registered in the `DeserMaps` classes map and no name it serializes
through is shadowed there, `deserialize_type(t.serialize(), ctx)` is
structurally equal (Python `==`) to `t`; and deserializing a dict with any
other `.class` value is the fatal error `unexpected .class <x>`. -/
theorem serialization_roundtrip_spec :
    (∀ p : RPrimData, RType.serialize (.rprimitive p) = .str p.name) ∧
    RType.serialize .rvoid = .str "void" ∧
    (∀ c : ClassIR, RType.serialize (.rinstance c) = .str c.fullname) ∧
    (∀ ts : List RType, RType.serialize (.rtuple ts) = .dict "RTuple" (serializeList ts)) ∧
    (∀ xs : List RType, RType.serialize (.runion xs) = .dict "RUnion" (serializeList xs)) ∧
    (∀ (ctx : DeserMaps) (t : RType), serializable ctx t = true →
      ∃ t', deserialize_type (RType.serialize t) ctx = .ok t' ∧ pyEq t' t = true) ∧
    (∀ (ctx : DeserMaps) (cls : String) (ds : List SerData),
      cls ≠ "RTuple" → cls ≠ "RUnion" →
      deserialize_type (.dict cls ds) ctx = .error ("unexpected .class " ++ cls)) := by
  refine ⟨fun p => rfl, rfl, fun c => rfl, fun ts => rfl, fun xs => rfl, ?_, ?_⟩
  · intro ctx t h
    obtain ⟨t', h1, h2, _, _⟩ := (roundtrip_aux (sizeOf t + 1)).1 t ctx (by omega) h
    exact ⟨t', h1, h2⟩
  · intro ctx cls ds h1 h2
    simp [deserialize_type, h1, h2]

/-- C9 witness: the round trip applied to the concrete type
`RTuple([int, C])` with `C` registered in the classes map, and the fatal
error at the concrete `.class` value `"RBogus"`. -/
theorem serialization_roundtrip_spec_witness :
    (∃ t', deserialize_type
        (RType.serialize (.rtuple [int_rprimitive, .rinstance (.mk "mod.C" [])]))
        ⟨[("mod.C", .mk "mod.C" [])]⟩ = .ok t' ∧
      pyEq t' (.rtuple [int_rprimitive, .rinstance (.mk "mod.C" [])]) = true) ∧
    deserialize_type (.dict "RBogus" []) ⟨[]⟩ = .error "unexpected .class RBogus" :=
  ⟨serialization_roundtrip_spec.2.2.2.2.2.1 ⟨[("mod.C", .mk "mod.C" [])]⟩
      (.rtuple [int_rprimitive, .rinstance (.mk "mod.C" [])]) (by decide),
   serialization_roundtrip_spec.2.2.2.2.2.2 ⟨[]⟩ "RBogus" []
      (by decide) (by decide)⟩

/-- A build source at the server boundary (`mypy.modulefinder.BuildSource`):
a module id and an optional path. -/
structure BuildSource where
  module : String
  path : Option String
deriving DecidableEq

/-- A server response dict, restricted to the keys the handlers of
`mypy/dmypy_server.py` produce; `stats` records whether `update_stats`
attached a `stats` key (whose value is opaque performance data). -/
structure Response where
  out : Option String := none
  err : Option String := none
  status : Option Int := none
  error : Option String := none
  restart : Option String := none
  stats : Bool := false
deriving DecidableEq

/-- `mypy.errors.CompileError` at the boundary: messages plus the
`use_stdout` flag consulted by `initialize_fine_grained`. -/
structure CompileError where
  messages : List String
  use_stdout : Bool

/-- The result of `mypy.build.build` at the boundary: the diagnostics, the
`used_cache` flag, and the resulting manager state. -/
structure BuildResultData (M : Type) where
  errors : List String
  usedCache : Bool
  manager : M

/-- The outcome of `mypy.main.process_options` as observed by `cmd_run`:
parsed sources together with the options-snapshot comparison, an
`InvalidSourceList`, or a `SystemExit` with captured stdout/stderr and exit
code (a configuration error exits with code 2). -/
inductive ProcessOptionsResult where
  | ok (sources : List BuildSource) (snapshotChanged : Bool)
  | invalidSources (msg : String)
  | sysExit (out err : String) (code : Int)

/-- The external collaborators of the server, spec'd at the boundary: the
file-system watcher (state type `W`), the fine-grained build manager (state
type `M`), source discovery, the build, the fine-grained update, option
processing, the suggestion engine, and output formatting.  All are modelled
as deterministic functions standing for one fixed process-wide behaviour. -/
structure External (W M : Type) where
  newWatcher : W
  addWatchedPaths : W → List String → W
  findChanged : W → W × List String
  updateChanged : W → List String → List String → W × List String
  primeWatcher : M → W → W
  staleModules : M → List (String × String)
  createSourceList : List String → Except String (List BuildSource)
  build : List BuildSource → Except CompileError (BuildResultData M)
  fgUpdate : M → List (String × String) → List (String × String) → M × List String
  prettyMessages : List String → Nat → List String
  processOptions : List String → ProcessOptionsResult
  version : String
  pluginsChanged : M → Bool
  suggestImpl : M → String → Bool → Except String String
  statusResponse : Response

/-- The server state observable across requests (`Server` in
`mypy/dmypy_server.py`): the optional fine-grained manager (absent in the
`Uninitialized` state), the previously checked sources, and the watcher. -/
structure ServerState (W M : Type) where
  fineGrainedManager : Option M
  previousSources : List BuildSource
  fswatcher : Option W

/-- `''.join(s + '\n' for s in messages)`. -/
def joinLines (messages : List String) : String :=
  String.join (messages.map fun s => s ++ "\n")

/-- `Server.update_sources`: watch the paths of all path-carrying sources. -/
def update_sources {W M : Type} (ext : External W M) (w : W)
    (sources : List BuildSource) : W :=
  ext.addWatchedPaths w (sources.filterMap (·.path))

/-- `Server._find_changed`: sources whose path is in the changed set are
changed; previous sources whose module is gone are removed (the source
asserts their path is present; pathless entries cannot arise there); a path
whose module id changed is recorded as removed under the old id and changed
under the new one. -/
def find_changed_pure {W M : Type} (st : ServerState W M)
    (sources : List BuildSource) (changedPaths : List String) :
    List (String × String) × List (String × String) :=
  let changed := sources.filterMap fun s =>
    match s.path with
    | some p => if p ∈ changedPaths then some (s.module, p) else none
    | none => none
  let modules := sources.map (·.module)
  let omitted := st.previousSources.filter fun s => !(modules.contains s.module)
  let removed := omitted.filterMap fun s => s.path.map fun p => (s.module, p)
  let last := st.previousSources.filterMap fun s => s.path.map fun p => (p, s.module)
  let renames := sources.filterMap fun s =>
    match s.path with
    | some p =>
      match last.lookup p with
      | some m => if m ≠ s.module then some ((m, p), (s.module, p)) else none
      | none => none
    | none => none
  (changed ++ renames.map (·.2), removed ++ renames.map (·.1))

/-- `Server.update_stats`: attach the `stats` key when a fine-grained
manager exists. -/
def update_stats {W M : Type} (res : Response) (st : ServerState W M) : Response :=
  match st.fineGrainedManager with
  | some _ => { res with stats := true }
  | none => res

/-- `Server.initialize_fine_grained`: create and prime the watcher, build;
a `CompileError` yields `status 2` carrying the compile error text (on
stdout or stderr per `use_stdout`) without creating a manager; otherwise the
manager is installed, the previous sources recorded, the cached case runs a
fine-grained update over the changed/stale modules, and the exit status is
`1` when there are diagnostic messages and `0` otherwise. -/
def initialize_fine_grained {W M : Type} (ext : External W M)
    (st : ServerState W M) (sources : List BuildSource) :
    Response × ServerState W M :=
  let w1 := update_sources ext ext.newWatcher sources
  match ext.build sources with
  | .error e =>
    let output := joinLines e.messages
    let outErr := if e.use_stdout then (output, "") else ("", output)
    ({ out := some outErr.1, err := some outErr.2, status := some 2 },
     { st with fswatcher := some w1 })
  | .ok result =>
    let st1 : ServerState W M :=
      { st with
        fswatcher := some w1
        fineGrainedManager := some result.manager
        previousSources := sources }
    if result.usedCache then
      let w2 := ext.primeWatcher result.manager w1
      let found := ext.findChanged w2
      let chrm := find_changed_pure st1 sources found.2
      let changed := chrm.1 ++ ext.staleModules result.manager
      let upd := ext.fgUpdate result.manager changed chrm.2
      let status : Int := if upd.2 ≠ [] then 1 else 0
      let pretty := ext.prettyMessages upd.2 sources.length
      ({ out := some (joinLines pretty), err := some "", status := some status },
       { st1 with
         fswatcher := some found.1
         fineGrainedManager := some upd.1 })
    else
      let found := ext.findChanged w1
      let status : Int := if result.errors ≠ [] then 1 else 0
      let pretty := ext.prettyMessages result.errors sources.length
      ({ out := some (joinLines pretty), err := some "", status := some status },
       { st1 with fswatcher := some found.1 })

/-- The changed/removed computation of `Server.fine_grained_increment`:
stat-based via the watcher when both `remove` and `update` are `None`,
otherwise via the caller's authoritative lists. -/
def increment_changes {W M : Type} (ext : External W M) (st : ServerState W M)
    (sources : List BuildSource) (rm upd : Option (List String)) :
    W × (List (String × String) × List (String × String)) :=
  let w0 := st.fswatcher.getD ext.newWatcher
  if rm = none ∧ upd = none then
    let w1 := update_sources ext w0 sources
    let found := ext.findChanged w1
    (found.1, find_changed_pure st sources found.2)
  else
    let found := ext.updateChanged w0 (rm.getD []) (upd.getD [])
    (found.1, find_changed_pure st sources found.2)

/-- `Server.fine_grained_increment`: compute the changes, run the
fine-grained update, record the new previous sources, and return status `1`
when there are diagnostic messages and `0` otherwise. -/
def fine_grained_increment {W M : Type} (ext : External W M)
    (st : ServerState W M) (mgr : M) (sources : List BuildSource)
    (rm upd : Option (List String)) : Response × ServerState W M :=
  let wc := increment_changes ext st sources rm upd
  let updRes := ext.fgUpdate mgr wc.2.1 wc.2.2
  let status : Int := if updRes.2 ≠ [] then 1 else 0
  let pretty := ext.prettyMessages updRes.2 sources.length
  ({ out := some (joinLines pretty), err := some "", status := some status },
   { st with
     fswatcher := some wc.1
     fineGrainedManager := some updRes.1
     previousSources := sources })

/-- `Server.check`: initialize on the first check, increment afterwards;
then `update_stats` against the resulting state. -/
def check_method {W M : Type} (ext : External W M) (st : ServerState W M)
    (sources : List BuildSource) : Response × ServerState W M :=
  let pr :=
    match st.fineGrainedManager with
    | none => initialize_fine_grained ext st sources
    | some mgr => fine_grained_increment ext st mgr sources none none
  (update_stats pr.1 pr.2, pr.2)

/-- `Server.cmd_check`: an `InvalidSourceList` from source discovery yields
`{out: "", err: <message>, status: 2}` and touches no state. -/
def cmd_check {W M : Type} (ext : External W M) (st : ServerState W M)
    (files : List String) : Response × ServerState W M :=
  match ext.createSourceList files with
  | .error msg => ({ out := some "", err := some msg, status := some 2 }, st)
  | .ok sources => check_method ext st sources

/-- `Server.cmd_recheck`: only valid after a `check`; `remove` filters the
previous sources, `update` discovers and appends the new paths (an
`InvalidSourceList` yields `status 2`), then a fine-grained increment runs
(Python truthiness: empty lists behave like absent ones for the filtering,
while the `remove is None and update is None` test in the increment uses the
original optionals). -/
def cmd_recheck {W M : Type} (ext : External W M) (st : ServerState W M)
    (rm upd : Option (List String)) : Response × ServerState W M :=
  match st.fineGrainedManager with
  | none =>
    ({ error := some "Command 'recheck' is only valid after a 'check' command" }, st)
  | some mgr =>
    let sources0 := st.previousSources
    let rmList := rm.getD []
    let sources1 :=
      if rmList ≠ [] then
        sources0.filter fun s =>
          match s.path with
          | some p => !(rmList.contains p)
          | none => false
      else sources0
    let updList := upd.getD []
    if updList ≠ [] then
      let known := sources1.filterMap (·.path)
      let added := updList.filter fun p => !(known.contains p)
      match ext.createSourceList added with
      | .error msg => ({ out := some "", err := some msg, status := some 2 }, st)
      | .ok addedSources =>
        let pr := fine_grained_increment ext st mgr (sources1 ++ addedSources) rm upd
        (update_stats pr.1 pr.2, pr.2)
    else
      let pr := fine_grained_increment ext st mgr sources1 rm upd
      (update_stats pr.1 pr.2, pr.2)

/-- `Server.cmd_suggest`: only valid after a `check`; a `SuggestionFailure`
yields an error response, otherwise the suggestion text (newline-terminated,
or `No suggestions`) with status `0`. -/
def cmd_suggest {W M : Type} (ext : External W M) (st : ServerState W M)
    (func : String) (callsites : Bool) : Response × ServerState W M :=
  match st.fineGrainedManager with
  | none =>
    ({ error := some "Command 'suggest' is only valid after a 'check' command" }, st)
  | some mgr =>
    match ext.suggestImpl mgr func callsites with
    | .error msg => ({ error := some msg }, st)
    | .ok out0 =>
      let out1 :=
        if out0 = "" then "No suggestions\n"
        else if !(out0.endsWith "\n") then out0 ++ "\n"
        else out0
      ({ out := some out1, err := some "", status := some 0 }, st)

/-- `Server.cmd_run`: process the flags (`InvalidSourceList` yields status 2,
a `SystemExit` propagates its captured output and exit code — 2 for a
configuration error); a changed options snapshot, mypy version, or plugin
set requests a restart; otherwise check the parsed sources. -/
def cmd_run {W M : Type} (ext : External W M) (st : ServerState W M)
    (version : String) (args : List String) : Response × ServerState W M :=
  match ext.processOptions args with
  | .invalidSources msg => ({ out := some "", err := some msg, status := some 2 }, st)
  | .sysExit o e code => ({ out := some o, err := some e, status := some code }, st)
  | .ok sources snapshotChanged =>
    if snapshotChanged then ({ restart := some "configuration changed" }, st)
    else if ext.version ≠ version then ({ restart := some "mypy version changed" }, st)
    else
      match st.fineGrainedManager with
      | some mgr =>
        if ext.pluginsChanged mgr then ({ restart := some "plugins changed" }, st)
        else check_method ext st sources
      | none => check_method ext st sources

/-- A request's named arguments, restricted to what the embedded commands
consume. -/
structure Request where
  files : List String := []
  version : String := ""
  args : List String := []
  remove : Option (List String) := none
  update : Option (List String) := none
  func : String := ""
  callsites : Bool := false

/-- `Server.run_command`: dispatch on the `cmd_<name>` methods that exist in
`mypy/dmypy_server.py` (`status`, `stop`, `run`, `check`, `recheck`,
`suggest`, `hang`); any other command name is answered with
`Unrecognized command '<name>'`. -/
def run_command {W M : Type} (ext : External W M) (st : ServerState W M)
    (cmd : String) (req : Request) : Response × ServerState W M :=
  if cmd = "status" then (ext.statusResponse, st)
  else if cmd = "stop" then ({}, st)
  else if cmd = "run" then cmd_run ext st req.version req.args
  else if cmd = "check" then cmd_check ext st req.files
  else if cmd = "recheck" then cmd_recheck ext st req.remove req.update
  else if cmd = "suggest" then cmd_suggest ext st req.func req.callsites
  else if cmd = "hang" then ({}, st)
  else ({ error := some ("Unrecognized command '" ++ cmd ++ "'") }, st)

/-- A trivial instantiation of the external collaborators, used to witness
the server theorems at concrete inputs. -/
def trivialExt : External Unit Unit where
  newWatcher := ()
  addWatchedPaths := fun _ _ => ()
  findChanged := fun w => (w, [])
  updateChanged := fun w _ _ => (w, [])
  primeWatcher := fun _ w => w
  staleModules := fun _ => []
  createSourceList := fun _ => .ok []
  build := fun _ => .ok ⟨[], false, ()⟩
  fgUpdate := fun m _ _ => (m, [])
  prettyMessages := fun ms _ => ms
  processOptions := fun _ => .ok [] false
  version := "0.770"
  pluginsChanged := fun _ => false
  suggestImpl := fun _ _ _ => .ok ""
  statusResponse := {}

/-- C8 (amended): in the Uninitialized state (no fine-grained manager),
`recheck` and `suggest` return an error response saying they are only valid
after a `'check'` command and leave the server state unchanged; there is no
`cmd_inspect` in this server, so `inspect` is answered with
`Unrecognized command 'inspect'` instead. -/
theorem uninitialized_commands_spec {W M : Type} (ext : External W M)
    (st : ServerState W M) (req : Request) (h : st.fineGrainedManager = none) :
    run_command ext st "recheck" req =
      ({ error := some "Command 'recheck' is only valid after a 'check' command" }, st) ∧
    run_command ext st "suggest" req =
      ({ error := some "Command 'suggest' is only valid after a 'check' command" }, st) ∧
    run_command ext st "inspect" req =
      ({ error := some "Unrecognized command 'inspect'" }, st) := by
  refine ⟨?_, ?_, ?_⟩ <;> simp [run_command, cmd_recheck, cmd_suggest, h]

/-- C8 witness: the `recheck` and `suggest` branches at a concrete
uninitialized server. -/
theorem uninitialized_commands_spec_witness :
    run_command trivialExt (⟨none, [], none⟩ : ServerState Unit Unit) "recheck" {} =
      ({ error := some "Command 'recheck' is only valid after a 'check' command" },
       (⟨none, [], none⟩ : ServerState Unit Unit)) ∧
    run_command trivialExt (⟨none, [], none⟩ : ServerState Unit Unit) "suggest" {} =
      ({ error := some "Command 'suggest' is only valid after a 'check' command" },
       (⟨none, [], none⟩ : ServerState Unit Unit)) :=
  ⟨(uninitialized_commands_spec trivialExt ⟨none, [], none⟩ {} rfl).1,
   (uninitialized_commands_spec trivialExt ⟨none, [], none⟩ {} rfl).2.1⟩

/-- C8 counterexample: in the Uninitialized state the `inspect` command does
not return an error saying it is only valid after a `'check'` command — no
`cmd_inspect` handler exists, so the response is the unrecognized-command
error, whose text does not contain `only valid after`. -/
theorem inspect_counterexample :
    (run_command trivialExt (⟨none, [], none⟩ : ServerState Unit Unit)
        "inspect" {}).1.error = some "Unrecognized command 'inspect'" ∧
    ¬ ("only valid after".data <:+:
      ((run_command trivialExt (⟨none, [], none⟩ : ServerState Unit Unit)
        "inspect" {}).1.error.getD "").data) := by
  constructor
  · rfl
  · decide

/-- C7: `check`, `recheck` and `run` return status 0 with no diagnostics and
1 with at least one; a source-discovery or configuration failure returns
`{out: "", err: <message>, status: 2}` (a compile error during the initial
build carries the compile error text instead), and in those failure cases the
fine-grained manager and previous sources are not updated. -/
theorem exit_code_spec {W M : Type} (ext : External W M) (st : ServerState W M) :
    (∀ files msg, ext.createSourceList files = .error msg →
      cmd_check ext st files =
        ({ out := some "", err := some msg, status := some 2 }, st)) ∧
    (∀ files sources e, ext.createSourceList files = .ok sources →
      st.fineGrainedManager = none → ext.build sources = .error e →
      (cmd_check ext st files).1.status = some 2 ∧
      (cmd_check ext st files).1.out =
        some (if e.use_stdout then joinLines e.messages else "") ∧
      (cmd_check ext st files).1.err =
        some (if e.use_stdout then "" else joinLines e.messages) ∧
      (cmd_check ext st files).2.fineGrainedManager = none ∧
      (cmd_check ext st files).2.previousSources = st.previousSources) ∧
    (∀ files sources r, ext.createSourceList files = .ok sources →
      st.fineGrainedManager = none → ext.build sources = .ok r →
      r.usedCache = false →
      (cmd_check ext st files).1.status = some (if r.errors = [] then 0 else 1)) ∧
    (∀ (mgr : M) sources rm upd,
      (fine_grained_increment ext st mgr sources rm upd).1.status =
        some (if (ext.fgUpdate mgr (increment_changes ext st sources rm upd).2.1
          (increment_changes ext st sources rm upd).2.2).2 = [] then 0 else 1)) ∧
    (∀ (mgr : M) upd msg, st.fineGrainedManager = some mgr → upd ≠ [] →
      ext.createSourceList (upd.filter fun p =>
        !((st.previousSources.filterMap (·.path)).contains p)) = .error msg →
      cmd_recheck ext st none (some upd) =
        ({ out := some "", err := some msg, status := some 2 }, st)) ∧
    (∀ version args msg, ext.processOptions args = .invalidSources msg →
      cmd_run ext st version args =
        ({ out := some "", err := some msg, status := some 2 }, st)) ∧
    (∀ version args o e c, ext.processOptions args = .sysExit o e c →
      cmd_run ext st version args =
        ({ out := some o, err := some e, status := some c }, st)) := by
  refine ⟨?_, ?_, ?_, ?_, ?_, ?_, ?_⟩
  · intro files msg h
    simp [cmd_check, h]
  · intro files sources e h1 h2 h3
    by_cases hu : e.use_stdout = true <;>
      simp [cmd_check, h1, check_method, h2, initialize_fine_grained, h3,
        update_stats, hu]
  · intro files sources r h1 h2 h3 h4
    simp [cmd_check, h1, check_method, h2, initialize_fine_grained, h3, h4,
      update_stats]
  · intro mgr sources rm upd
    by_cases hm : (ext.fgUpdate mgr (increment_changes ext st sources rm upd).2.1
        (increment_changes ext st sources rm upd).2.2).2 = [] <;>
      simp [fine_grained_increment, hm]
  · intro mgr upd msg h1 h2 h3
    simp at h3
    simp [cmd_recheck, h1, h2, h3]
  · intro version args msg h
    simp [cmd_run, h]
  · intro version args o e c h
    simp [cmd_run, h]

/-- C7 witness: source-discovery failure on `check` and a configuration
`SystemExit(2)` on `run` at concrete instantiations. -/
theorem exit_code_spec_witness :
    cmd_check { trivialExt with createSourceList := fun _ => .error "bad source" }
        (⟨none, [], none⟩ : ServerState Unit Unit) [] =
      ({ out := some "", err := some "bad source", status := some 2 },
       (⟨none, [], none⟩ : ServerState Unit Unit)) ∧
    cmd_run { trivialExt with processOptions := fun _ => .sysExit "" "conf err" 2 }
        (⟨none, [], none⟩ : ServerState Unit Unit) "0.770" [] =
      ({ out := some "", err := some "conf err", status := some 2 },
       (⟨none, [], none⟩ : ServerState Unit Unit)) :=
  ⟨(exit_code_spec { trivialExt with createSourceList := fun _ => .error "bad source" }
      ⟨none, [], none⟩).1 [] "bad source" rfl,
   (exit_code_spec { trivialExt with processOptions := fun _ => .sysExit "" "conf err" 2 }
      ⟨none, [], none⟩).2.2.2.2.2.2 "0.770" [] "" "conf err" 2 rfl⟩

/-- C2 witness: the bool-to-int promotion instantiated through the
primitive characterization. -/
theorem prim_subtype_spec_witness :
    is_subtype (.rprimitive boolPrim) (.rprimitive intPrim) = true :=
  (prim_subtype_spec.1 boolPrim intPrim).mpr (Or.inr (Or.inr (Or.inl ⟨rfl, rfl⟩)))

/-- C3 witness: the Branch gen/kill clause at concrete registers. -/
theorem liveness_spec_witness :
    livenessGenKill (.branch 0 1 2 3) = ({0, 1}, ∅) :=
  liveness_spec.1 0 1 2 3

/-- C6 witness: the refcounting characterization at a concrete tuple. -/
theorem rtuple_refcounted_spec_witness :
    (RType.rtuple [bool_rprimitive, list_rprimitive]).is_refcounted =
      [bool_rprimitive, list_rprimitive].any RType.is_refcounted :=
  rtuple_refcounted_spec.1 [bool_rprimitive, list_rprimitive]

end Mypy
